import Mathlib

/-!
Verification development for the Piezo telemetry backend.

The repository contains four near-duplicate server variants:
* `server.js`            — MongoDB-backed variant (namespace `ServerJs` below),
* `src/unnamed/part_000` — MongoDB-backed variant with numeric validation,
  an extended totals endpoint and a protected delete-all endpoint
  (namespace `Part000`),
* `src/unnamed/part_001` — flat-file variant with a `MAX_HISTORY` bound and a
  field-normalisation helper (namespace `Part001`),
* `21servercopy.js`      — flat-file variant with a replay simulator
  (namespace `Copy21`).

JavaScript values appearing in request bodies and stored readings are modelled
by `JsVal` (with numbers modelled by `JsNum`: a finite rational, `NaN`, or a
signed infinity).  Timestamps are modelled as numeric instants (milliseconds
since the Unix epoch); `Date#toISOString` strings are represented by the
instant they denote, which preserves both equality and ordering of instants.
File persistence (`data.json`) is modelled by `FileData`: the file is either
absent (`readFileSync` throws), unparseable (`JSON.parse` throws) or a JSON
array of objects.  Write calls are modelled as succeeding.
-/

/-- Model of a JavaScript number: a finite rational, `NaN`, or a signed
infinity.  (IEEE doubles are modelled by rationals; none of the verified
properties depends on rounding.) -/
inductive JsNum where
  | finite (q : Rat)
  | nan
  | inf
  | ninf
deriving DecidableEq

/-- True exactly for the `NaN` value, as JavaScript's `isNaN` on numbers. -/
def JsNum.isNaN : JsNum → Bool
  | .nan => true
  | _ => false

/-- True exactly for finite values, as JavaScript's `isFinite` on numbers. -/
def JsNum.isFiniteNum : JsNum → Bool
  | .finite _ => true
  | _ => false

/-- Addition of JavaScript numbers (IEEE semantics on the four-case model):
`NaN` is absorbing, opposite infinities give `NaN`, an infinity dominates any
finite value. -/
def JsNum.add : JsNum → JsNum → JsNum
  | .nan, _ => .nan
  | _, .nan => .nan
  | .inf, .ninf => .nan
  | .ninf, .inf => .nan
  | .inf, _ => .inf
  | _, .inf => .inf
  | .ninf, _ => .ninf
  | _, .ninf => .ninf
  | .finite p, .finite q => .finite (p + q)

/-- Division of a JavaScript number by a (positive) element count, used for
averages.  Division by zero never occurs on the paths below (counts are
lengths of nonempty groups). -/
def JsNum.divNat (a : JsNum) (n : Nat) : JsNum :=
  match a with
  | .finite q => if n = 0 then .nan else .finite (q / (n : Rat))
  | .nan => .nan
  | .inf => if n = 0 then .nan else .inf
  | .ninf => if n = 0 then .nan else .ninf

/-- Sum of a list of JavaScript numbers, as the `$sum` accumulator (initial
value 0). -/
def sumN (l : List JsNum) : JsNum := l.foldl JsNum.add (.finite 0)

/-- Arithmetic mean of a list of JavaScript numbers, as the `$avg`
accumulator. -/
def avgN (l : List JsNum) : JsNum := (sumN l).divNat l.length

/-- Model of a JavaScript value as it appears in a parsed JSON request body or
in a stored reading object: `undefined` (an absent property), `null`, a
number, or a (non-null) object. -/
inductive JsVal where
  | undef
  | null
  | num (n : JsNum)
  | obj
deriving DecidableEq

/-- JavaScript's `Number(v)` coercion on the modelled values: `undefined`
converts to `NaN`, `null` to `0`, a number to itself, a plain object to
`NaN`. -/
def toNumber : JsVal → JsNum
  | .undef => .nan
  | .null => .finite 0
  | .num n => n
  | .obj => .nan

/-- JavaScript truthiness of the modelled values: `undefined`, `null`, `0`
and `NaN` are falsy; every other modelled value is truthy. -/
def truthy : JsVal → Bool
  | .undef => false
  | .null => false
  | .num (.finite q) => decide (q ≠ 0)
  | .num .nan => false
  | .num _ => true
  | .obj => true

/-- Model of a JavaScript object in a reading's position: the fields are the
union of the property names used by the repository (the short wire names, the
suffixed canonical names, and `timestamp`).  A property that an object does
not carry reads as `undefined`, exactly as in JavaScript. -/
structure JsObj where
  steps : JsVal := .undef
  power : JsVal := .undef
  voltage : JsVal := .undef
  current : JsVal := .undef
  power_mW : JsVal := .undef
  voltage_V : JsVal := .undef
  current_mA : JsVal := .undef
  timestamp : JsVal := .undef
deriving DecidableEq

/-- State of the persisted `data.json` file: absent (`readFileSync` throws),
unparseable (`JSON.parse` throws), or a parsed JSON array of objects. -/
inductive FileData where
  | missing
  | malformed
  | good (arr : List JsObj)
deriving DecidableEq

/-- `loadDataArray()` of both flat-file variants: return the parsed array,
and degrade to `[]` when reading or parsing fails (the `try`/`catch` around
`readFileSync` + `JSON.parse`). -/
def loadDataArray : FileData → List JsObj
  | .good arr => arr
  | _ => []

/-- The last `n` elements of a list, as JavaScript's `arr.slice(-n)` for
`n > 0` (the whole list when it is shorter than `n`). -/
def takeLast (n : Nat) (l : List α) : List α := l.drop (l.length - n)

/-- Response of a history read (`GET /api/data` or the `initial-data`
snapshot): HTTP status, the `success` flag, and the reading array. -/
structure DataResp where
  status : Nat
  success : Bool
  data : List JsObj
deriving DecidableEq

/-- Outcome of a flat-file `POST /api/data`: the HTTP response (status,
`success`, echoed reading) and the resulting file state. -/
structure PostOut where
  status : Nat
  success : Bool
  data : Option JsObj
  file : FileData
deriving DecidableEq

namespace Part001

/-- `MAX_HISTORY` of `part_001`: keep the last 1000 readings. -/
def MAX_HISTORY : Nat := 1000

/-- `toNumberOrNull(val)` of `part_001`: `Number(val)` when the result is
finite, otherwise `null`. -/
def toNumberOrNull (v : JsVal) : JsVal :=
  match toNumber v with
  | .finite q => .num (.finite q)
  | _ => .null

/-- `normalizeReading(reading)` of `part_001`: build the suffixed-name record
from the short-name fields via `toNumberOrNull`, and default the timestamp to
the current instant when the stored one is falsy (`reading.timestamp || new
Date().toISOString()`).  `now` is the instant at which the function runs. -/
def normalizeReading (r : JsObj) (now : Nat) : JsObj :=
  { steps := toNumberOrNull r.steps
    power_mW := toNumberOrNull r.power
    voltage_V := toNumberOrNull r.voltage
    current_mA := toNumberOrNull r.current
    timestamp := if truthy r.timestamp then r.timestamp else .num (.finite now) }

/-- `GET /api/data` of `part_001`: load the stored array and map
`normalizeReading` over it (note: the stored records already use the suffixed
names, so this second normalisation reads the short names — which are absent —
and yields `null` for the power/voltage/current fields). -/
def getData (f : FileData) (now : Nat) : DataResp :=
  ⟨200, true, (loadDataArray f).map (fun r => normalizeReading r now)⟩

/-- The `initial-data` snapshot `part_001` sends to a newly connected
observer: identical to the `GET /api/data` body. -/
def connectSnapshot (f : FileData) (now : Nat) : List JsObj :=
  (loadDataArray f).map (fun r => normalizeReading r now)

/-- The store update performed by a successful `part_001` append: push the
normalized reading and keep the last `MAX_HISTORY` entries
(`arr.slice(-MAX_HISTORY)`). -/
def appendStep (st : List JsObj) (r : JsObj) : List JsObj :=
  takeLast MAX_HISTORY (st ++ [r])

/-- `POST /api/data` of `part_001`: reject with 400 when the body is falsy or
one of `steps`, `voltage`, `current`, `power` is `undefined`; otherwise
normalize, append to the loaded array, trim to the last `MAX_HISTORY` entries
and persist.  (The write is modelled as succeeding; the caught write-failure
path returns 500 with the file unchanged.) -/
def postData (body : Option JsObj) (f : FileData) (now : Nat) : PostOut :=
  match body with
  | none => ⟨400, false, none, f⟩
  | some r =>
    if r.steps = .undef ∨ r.voltage = .undef ∨ r.current = .undef ∨ r.power = .undef then
      ⟨400, false, none, f⟩
    else
      let normalized := normalizeReading r now
      ⟨200, true, some normalized, .good (appendStep (loadDataArray f) normalized)⟩

/-- The file state after a sequence of `POST /api/data` requests with the
given bodies, all served at instant `now`, starting from file state `f`. -/
def postFold (bodies : List JsObj) (f : FileData) (now : Nat) : FileData :=
  bodies.foldl (fun acc b => (postData (some b) acc now).file) f

/-- A request body passing the presence check of `part_001`'s POST handler:
none of the four numeric fields is `undefined`. -/
def bodyValid (r : JsObj) : Prop :=
  r.steps ≠ .undef ∧ r.voltage ≠ .undef ∧ r.current ≠ .undef ∧ r.power ≠ .undef

instance (r : JsObj) : Decidable (bodyValid r) := by
  unfold bodyValid; infer_instance

end Part001

namespace Copy21

/-- `POST /api/data` of `21servercopy.js`: reject with 400 when the body is
falsy or one of `steps`, `voltage`, `current`, `power` is `undefined`;
otherwise stamp a timestamp when the supplied one is falsy
(`reading.timestamp = reading.timestamp || new Date().toISOString()`), push
the raw reading and persist the whole array (this variant has no history
bound and no normalisation). -/
def postData (body : Option JsObj) (f : FileData) (now : Nat) : PostOut :=
  match body with
  | none => ⟨400, false, none, f⟩
  | some r =>
    if r.steps = .undef ∨ r.voltage = .undef ∨ r.current = .undef ∨ r.power = .undef then
      ⟨400, false, none, f⟩
    else
      let stamped := { r with timestamp := if truthy r.timestamp then r.timestamp else .num (.finite now) }
      ⟨200, true, some stamped, .good (loadDataArray f ++ [stamped])⟩

/-- `GET /api/data` of `21servercopy.js`: the loaded array, unmodified. -/
def getData (f : FileData) : DataResp := ⟨200, true, loadDataArray f⟩

/-- The `initial-data` snapshot `21servercopy.js` sends on connection. -/
def connectSnapshot (f : FileData) : List JsObj := loadDataArray f

/-- `reading.timestamp = new Date().toISOString()` inside the simulator tick:
the copied reading re-stamped with the current instant. -/
def stampTs (r : JsObj) (now : Nat) : JsObj :=
  { r with timestamp := .num (.finite now) }

/-- State of the replay simulator: the persisted file and the wrapping
`simulatedIndex`. -/
structure SimState where
  file : FileData
  idx : Nat
deriving DecidableEq

/-- One `setInterval` tick of `startSimulator()`: load the data, return
without emitting when it is empty (`if (!data.length) return`); otherwise
emit `new-reading` with a copy of `data[simulatedIndex]` re-stamped with the
current instant (`{...data[simulatedIndex]}`, giving the empty object when
the index is out of range) and advance the index modulo the data length.
The tick performs no write, so the file state is returned unchanged. -/
def simTick (s : SimState) (now : Nat) : SimState × Option (String × JsObj) :=
  let data := loadDataArray s.file
  if data.length = 0 then (s, none)
  else
    let reading := stampTs (data.getD s.idx {}) now
    (⟨s.file, (s.idx + 1) % data.length⟩, some ("new-reading", reading))

/-- Simulator states reachable in a `21servercopy.js` run: `startSimulator()`
only starts the timer when the loaded data is nonempty (index 0); between
ticks the file evolves only through the variant's own POST handler, and each
tick advances the state as `simTick` does. -/
inductive SimReach : SimState → Prop where
  | start (f : FileData) (h : (loadDataArray f).length ≠ 0) : SimReach ⟨f, 0⟩
  | tick (s : SimState) (now : Nat) (h : SimReach s) : SimReach (simTick s now).1
  | post (s : SimState) (body : Option JsObj) (now : Nat) (h : SimReach s) :
      SimReach ⟨(postData body s.file now).file, s.idx⟩

end Copy21

/-- A document of the mongoose `Reading` model: the four numeric fields (cast
to numbers; mongoose rejects `NaN` but accepts infinities) and a `Date`
timestamp, modelled as the instant in milliseconds.  The backend-generated
`_id` plays no role in any verified property and is omitted. -/
structure MReading where
  steps : JsNum
  power_mW : JsNum
  voltage_V : JsNum
  current_mA : JsNum
  timestamp : Nat
deriving DecidableEq

/-- The timestamp stored by the MongoDB variants: `timestamp ? new
Date(timestamp) : undefined` followed by the schema default `Date.now` — the
supplied instant when it is truthy (a numeric timestamp `0` is falsy and hence
replaced), else the current instant. -/
def tsOrNow (t : Option Nat) (now : Nat) : Nat :=
  match t with
  | some v => if v = 0 then now else v
  | none => now

/-- Comparison of stored readings by timestamp, the `sort({ timestamp: 1 })`
order. -/
def tsLeB (a b : MReading) : Bool := Nat.ble a.timestamp b.timestamp

/-- `Reading.find().sort({ timestamp: 1 })`: the stored documents sorted
ascending by timestamp. -/
def sortByTs (db : List MReading) : List MReading := db.mergeSort tsLeB

/-- The `$group` key of `GET /api/daily`: the `$dateToString` result
`"%Y-%m-%d"` represented by the calendar triple it prints.  The format
zero-pads to fixed widths, so equality of the printed strings is equality of
the triples, and (for the four-digit years `$dateToString` supports)
lexicographic order of the strings is lexicographic order of the triples. -/
structure DateKey where
  y : Nat
  m : Nat
  d : Nat
deriving DecidableEq

/-- Order on day keys mirroring the `$sort({ _id: 1 })` order of the
formatted date strings: lexicographic on (year, month, day). -/
def DateKey.leB (a b : DateKey) : Bool :=
  Nat.blt a.y b.y ||
    (a.y == b.y && (Nat.blt a.m b.m || (a.m == b.m && Nat.ble a.d b.d)))

/-- Proleptic-Gregorian civil date (UTC) of a day count since 1970-01-01,
the date arithmetic underlying `$dateToString` with the default UTC zone
(Howard Hinnant's `civil_from_days`, shifted to era base 0000-03-01). -/
def civilFromDays (z0 : Nat) : DateKey :=
  let z := z0 + 719468
  let era := z / 146097
  let doe := z % 146097
  let yoe := (doe - doe / 1460 + doe / 36524 - doe / 146096) / 365
  let y := yoe + era * 400
  let doy := doe - (365 * yoe + yoe / 4 - yoe / 100)
  let mp := (5 * doy + 2) / 153
  let d := doy - (153 * mp + 2) / 5 + 1
  let m := if mp < 10 then mp + 3 else mp - 9
  ⟨if m ≤ 2 then y + 1 else y, m, d⟩

/-- The UTC calendar date of a stored timestamp (milliseconds since the
epoch): the civil date of its day number. -/
def dateKey (tsMs : Nat) : DateKey := civilFromDays (tsMs / 86400000)

/-- The `AggregateSnapshot` shape of `server.js`'s `GET /api/totals`:
`$sum` of steps and power, `$avg` of power, voltage and current. -/
structure Totals where
  totalSteps : JsNum
  totalPower : JsNum
  avgPower : JsNum
  avgVoltage : JsNum
  avgCurrent : JsNum
deriving DecidableEq

/-- JSON field lookup on a totals response body, enumerating exactly the
numeric keys the aggregation stage produces. -/
def totalsField (t : Totals) (name : String) : Option JsNum :=
  if name = "totalSteps" then some t.totalSteps
  else if name = "totalPower" then some t.totalPower
  else if name = "avgPower" then some t.avgPower
  else if name = "avgVoltage" then some t.avgVoltage
  else if name = "avgCurrent" then some t.avgCurrent
  else none

/-- A bucket of `server.js`'s `GET /api/daily` `$group` stage: the date key
(`_id`) and the four accumulators the stage defines — note it computes no
`avgPower`. -/
structure DailyBucket where
  key : DateKey
  totalSteps : JsNum
  totalPower : JsNum
  avgVoltage : JsNum
  avgCurrent : JsNum
deriving DecidableEq

/-- JSON field lookup on a daily bucket, enumerating exactly the numeric keys
the `$group` stage produces (`avgPower` is not among them). -/
def dailyField (b : DailyBucket) (name : String) : Option JsNum :=
  if name = "totalSteps" then some b.totalSteps
  else if name = "totalPower" then some b.totalPower
  else if name = "avgVoltage" then some b.avgVoltage
  else if name = "avgCurrent" then some b.avgCurrent
  else none

namespace ServerJs

/-- `GET /api/data` of `server.js` (and the `initial-data` snapshot): all
stored readings sorted ascending by timestamp. -/
def listAll (db : List MReading) : List MReading := sortByTs db

/-- The `initial-data` snapshot `server.js` sends to a newly connected
observer: the same sorted full read. -/
def connectSnapshot (db : List MReading) : List MReading := listAll db

/-- `GET /api/totals` of `server.js`: the `$group(_id: null)` aggregation;
on an empty collection the pipeline returns no group and the handler answers
with the explicit all-zero snapshot. -/
def totals (db : List MReading) : Totals :=
  if db.isEmpty then
    ⟨.finite 0, .finite 0, .finite 0, .finite 0, .finite 0⟩
  else
    ⟨sumN (db.map (·.steps)), sumN (db.map (·.power_mW)),
      avgN (db.map (·.power_mW)), avgN (db.map (·.voltage_V)),
      avgN (db.map (·.current_mA))⟩

/-- The bucket `GET /api/daily` produces for day key `k`: accumulators over
the readings of the store whose timestamp falls on that UTC date. -/
def mkBucket (db : List MReading) (k : DateKey) : DailyBucket :=
  let grp := db.filter (fun r => dateKey r.timestamp == k)
  ⟨k, sumN (grp.map (·.steps)), sumN (grp.map (·.power_mW)),
    avgN (grp.map (·.voltage_V)), avgN (grp.map (·.current_mA))⟩

/-- `GET /api/daily` of `server.js`: group the stored readings by the UTC
date string of their timestamp (`$dateToString "%Y-%m-%d"`), then sort the
buckets ascending by that key (`$sort({_id: 1})`). -/
def daily (db : List MReading) : List DailyBucket :=
  let keys := (db.map (fun r => dateKey r.timestamp)).dedup
  (keys.mergeSort DateKey.leB).map (mkBucket db)

end ServerJs

/-- Response of `POST /api/data` on the `part_000` variant: status, `success`
flag and the saved document when the request was accepted. -/
structure MPostResp where
  status : Nat
  success : Bool
  data : Option MReading
deriving DecidableEq

/-- Response of `DELETE /api/delete-all`: status, `success` flag and
message. -/
structure DelResp where
  status : Nat
  success : Bool
  message : String
deriving DecidableEq

/-- The extended totals shape of `part_000`'s `GET /api/totals` (it also sums
voltage and current). -/
structure TotalsX where
  totalSteps : JsNum
  totalPower : JsNum
  totalVoltage : JsNum
  totalCurrent : JsNum
  avgPower : JsNum
  avgVoltage : JsNum
  avgCurrent : JsNum
deriving DecidableEq

/-- A request body for the MongoDB variants: the destructured short-name
numeric fields, and the optional timestamp (a valid date-time instant when
supplied; the invalid-date path is not exercised by any claim). -/
structure MBody where
  steps : JsVal := .undef
  power : JsVal := .undef
  voltage : JsVal := .undef
  current : JsVal := .undef
  timestamp : Option Nat := none
deriving DecidableEq

namespace Part000

/-- `GET /api/data` of `part_000`: identical to `server.js`'s sorted full
read. -/
def listAll (db : List MReading) : List MReading := sortByTs db

/-- `POST /api/data` of `part_000`: convert the four fields with `Number`,
reject with 400 when any result `isNaN` (an absent field converts to `NaN`
and is therefore rejected here; infinite values pass), otherwise save the
document and append it to the collection. -/
def postData (b : MBody) (db : List MReading) (now : Nat) :
    MPostResp × List MReading :=
  let ps := toNumber b.steps
  let pp := toNumber b.power
  let pv := toNumber b.voltage
  let pc := toNumber b.current
  if ps.isNaN || pp.isNaN || pv.isNaN || pc.isNaN then
    (⟨400, false, none⟩, db)
  else
    let doc : MReading := ⟨ps, pp, pv, pc, tsOrNow b.timestamp now⟩
    (⟨200, true, some doc⟩, db ++ [doc])

/-- `GET /api/totals` of `part_000`: as `server.js` but with the two extra
sums; all-zero response on an empty collection. -/
def totals (db : List MReading) : TotalsX :=
  if db.isEmpty then
    ⟨.finite 0, .finite 0, .finite 0, .finite 0, .finite 0, .finite 0, .finite 0⟩
  else
    ⟨sumN (db.map (·.steps)), sumN (db.map (·.power_mW)),
      sumN (db.map (·.voltage_V)), sumN (db.map (·.current_mA)),
      avgN (db.map (·.power_mW)), avgN (db.map (·.voltage_V)),
      avgN (db.map (·.current_mA))⟩

/-- `DELETE /api/delete-all` of `part_000`: `key` is the `key` query
parameter (absent ⇒ `undefined`), `adminKey` is `process.env.ADMIN_KEY`
(unset ⇒ `undefined`); the handler answers 403 unless the two are strictly
equal, and otherwise `deleteMany({})` empties the collection and the response
reports the deleted count. -/
def deleteAll (key adminKey : Option String) (db : List MReading) :
    DelResp × List MReading :=
  if key ≠ adminKey then
    (⟨403, false, "Unauthorized"⟩, db)
  else
    (⟨200, true, "Deleted " ++ toString db.length ++ " readings"⟩, [])

end Part000

/-- Delivery channel of a reading to an observer over the real-time socket:
the one-shot `initial-data` snapshot or a `new-reading` broadcast. -/
inductive Chan where
  | snapshot
  | broadcast
deriving DecidableEq

/-- State of the live-distribution hub of the MongoDB variants: the
collection, the observers currently registered with the socket server, and
the multiset of deliveries performed so far (observer, reading, channel). -/
structure HubState where
  db : List MReading
  registered : List Nat
  delivered : List (Nat × MReading × Chan)

/-- Atomic events of the asynchronous connection/append paths.  A socket is
registered with the server the moment it connects (so it receives subsequent
`io.emit` broadcasts); its `initial-data` snapshot is sent only when the
handler's awaited `find()` resolves, reading the collection at that instant.
A POST appends via the awaited `save()` and only afterwards runs `io.emit`,
so other events may interleave between the two. -/
inductive HubEv where
  | connect (o : Nat)
  | resolveSnapshot (o : Nat)
  | append (r : MReading)
  | broadcast (r : MReading)

/-- Effect of one event on the hub state. -/
def hubStep (s : HubState) : HubEv → HubState
  | .connect o => { s with registered := s.registered ++ [o] }
  | .resolveSnapshot o =>
      { s with delivered := s.delivered ++ s.db.map (fun r => (o, r, Chan.snapshot)) }
  | .append r => { s with db := s.db ++ [r] }
  | .broadcast r =>
      { s with delivered := s.delivered ++ s.registered.map (fun o => (o, r, Chan.broadcast)) }

/-- Run a schedule of events from a hub state. -/
def hubRun (s : HubState) (tr : List HubEv) : HubState := tr.foldl hubStep s

/-- How many times observer `o` has received reading `r`, over both
channels. -/
def deliveredCount (s : HubState) (o : Nat) (r : MReading) : Nat :=
  (s.delivered.filter (fun e => e.1 == o && e.2.1 == r)).length

/-- The hub with no readings, no observers and no deliveries. -/
def hubInit : HubState := ⟨[], [], []⟩

/-- Timestamp comparison on serialized file readings: numeric timestamps
compare as numbers; non-numeric timestamp shapes are unordered. -/
def jsTsLeB (a b : JsObj) : Bool :=
  match a.timestamp, b.timestamp with
  | .num (.finite p), .num (.finite q) => decide (p ≤ q)
  | _, _ => false

/-- Propositional form of `jsTsLeB`, for sortedness statements. -/
def jsTsLe (a b : JsObj) : Prop := jsTsLeB a b = true

instance : DecidableRel jsTsLe := fun a b => by unfold jsTsLe; infer_instance

/-- A well-formed raw reading body with unit numeric fields and the given
(positive) numeric timestamp. -/
def rawBody (t : Nat) : JsObj :=
  { steps := .num (.finite 1), power := .num (.finite 1),
    voltage := .num (.finite 1), current := .num (.finite 1),
    timestamp := .num (.finite (t : Rat)) }

/-- Append sequence exercising the history bound with an out-of-order
timestamp: 1000 readings with increasing timestamps 2..1001, then one
carrying the explicit past timestamp 1. -/
def cexBodies : List JsObj :=
  ((List.range 1000).map (fun i => rawBody (i + 2))) ++ [rawBody 1]

/-- A raw body whose `steps` property is present but a plain object, so that
`Number(steps)` is `NaN` (and not finite). -/
def objStepsBody : JsObj :=
  { steps := .obj, power := .num (.finite 1), voltage := .num (.finite 1),
    current := .num (.finite 1), timestamp := .num (.finite 5) }

/-- A stored MongoDB reading with unit numeric fields at the given instant. -/
def mRead (t : Nat) : MReading := ⟨.finite 1, .finite 1, .finite 1, .finite 1, t⟩

/-- The record `part_001` persists for `objStepsBody`: the non-numeric
`steps` value has been coerced to `null`. -/
def storedNullSteps : JsObj :=
  { steps := .null, power_mW := .num (.finite 1),
    voltage_V := .num (.finite 1), current_mA := .num (.finite 1),
    timestamp := .num (.finite 5) }

/-! Helper lemmas about the store-trimming combinator and the embedded
operations, shared by the claim theorems below. -/

theorem loadDataArray_good (arr : List JsObj) : loadDataArray (.good arr) = arr := rfl

theorem takeLast_eq_reverse (n : Nat) (l : List α) :
    takeLast n l = (l.reverse.take n).reverse := by
  rw [List.reverse_take, List.length_reverse, List.reverse_reverse]
  rfl

theorem takeLast_append_left (n : Nat) (A B : List α) :
    takeLast n (takeLast n A ++ B) = takeLast n (A ++ B) := by
  simp only [takeLast_eq_reverse, List.reverse_append, List.reverse_reverse,
    List.take_append_eq_append_take, List.take_take, List.length_reverse]
  rw [inf_of_le_left (Nat.sub_le n B.length)]

theorem takeLast_nil (n : Nat) : takeLast n ([] : List α) = [] := by
  simp [takeLast]

theorem takeLast_length (n : Nat) (l : List α) :
    (takeLast n l).length = min n l.length := by
  simp only [takeLast, List.length_drop]
  omega

theorem foldl_appendStep (rs : List JsObj) : ∀ st : List JsObj,
    rs.foldl Part001.appendStep (takeLast Part001.MAX_HISTORY st) =
      takeLast Part001.MAX_HISTORY (st ++ rs) := by
  induction rs with
  | nil => intro st; simp
  | cons r rs ih =>
    intro st
    have h1 : Part001.appendStep (takeLast Part001.MAX_HISTORY st) r =
        takeLast Part001.MAX_HISTORY (st ++ [r]) := by
      unfold Part001.appendStep
      exact takeLast_append_left _ st [r]
    rw [List.foldl_cons, h1, ih (st ++ [r]), List.append_assoc,
      List.singleton_append]

theorem store_eq_takeLast (rs : List JsObj) :
    rs.foldl Part001.appendStep [] = takeLast Part001.MAX_HISTORY rs := by
  have h := foldl_appendStep rs []
  rwa [takeLast_nil, List.nil_append] at h

theorem postData_valid (r : JsObj) (st : List JsObj) (now : Nat)
    (h : Part001.bodyValid r) :
    Part001.postData (some r) (.good st) now =
      ⟨200, true, some (Part001.normalizeReading r now),
        .good (Part001.appendStep st (Part001.normalizeReading r now))⟩ := by
  obtain ⟨h1, h2, h3, h4⟩ := h
  simp [Part001.postData, loadDataArray, h1, h2, h3, h4]

theorem postFold_valid (bodies : List JsObj) : ∀ (st : List JsObj) (now : Nat),
    (∀ b ∈ bodies, Part001.bodyValid b) →
    Part001.postFold bodies (.good st) now =
      .good ((bodies.map (fun b => Part001.normalizeReading b now)).foldl
        Part001.appendStep st) := by
  induction bodies with
  | nil => intro st now _; rfl
  | cons b bs ih =>
    intro st now h
    have hb := h b (List.mem_cons_self b bs)
    have hbs : ∀ x ∈ bs, Part001.bodyValid x :=
      fun x hx => h x (List.mem_cons_of_mem _ hx)
    have h1 : Part001.postFold (b :: bs) (.good st) now =
        Part001.postFold bs
          (.good (Part001.appendStep st (Part001.normalizeReading b now))) now := by
      show ((b :: bs).foldl
        (fun acc x => (Part001.postData (some x) acc now).file) (.good st)) = _
      rw [List.foldl_cons, postData_valid b st now hb]
      rfl
    rw [h1, ih _ now hbs, List.map_cons, List.foldl_cons]

theorem tsLeB_trans (a b c : MReading) (h1 : tsLeB a b = true)
    (h2 : tsLeB b c = true) : tsLeB a c = true := by
  simp only [tsLeB, Nat.ble_eq] at *
  omega

theorem tsLeB_total (a b : MReading) : (tsLeB a b || tsLeB b a) = true := by
  simp only [tsLeB, Bool.or_eq_true, Nat.ble_eq]
  omega

theorem dateLeB_trans (a b c : DateKey) (h1 : DateKey.leB a b = true)
    (h2 : DateKey.leB b c = true) : DateKey.leB a c = true := by
  simp only [DateKey.leB, Bool.or_eq_true, Bool.and_eq_true, Nat.blt_eq,
    Nat.ble_eq, beq_iff_eq] at *
  omega

theorem dateLeB_total (a b : DateKey) : (DateKey.leB a b || DateKey.leB b a) = true := by
  simp only [DateKey.leB, Bool.or_eq_true, Bool.and_eq_true, Nat.blt_eq,
    Nat.ble_eq, beq_iff_eq]
  omega

theorem simTick_pos (s : Copy21.SimState) (now : Nat)
    (h : (loadDataArray s.file).length ≠ 0) :
    Copy21.simTick s now =
      (⟨s.file, (s.idx + 1) % (loadDataArray s.file).length⟩,
        some ("new-reading",
          Copy21.stampTs ((loadDataArray s.file).getD s.idx {}) now)) := by
  unfold Copy21.simTick
  simp [h]

theorem simReach_inv {s : Copy21.SimState} (h : Copy21.SimReach s) :
    0 < (loadDataArray s.file).length ∧
      s.idx < (loadDataArray s.file).length := by
  induction h with
  | start f hf =>
    have hp : 0 < (loadDataArray f).length := Nat.pos_of_ne_zero hf
    exact ⟨hp, hp⟩
  | tick s now _ ih =>
    obtain ⟨hpos, _⟩ := ih
    rw [simTick_pos s now (Nat.pos_iff_ne_zero.mp hpos)]
    exact ⟨hpos, Nat.mod_lt _ hpos⟩
  | post s body now _ ih =>
    obtain ⟨hpos, hidx⟩ := ih
    have hlen : (loadDataArray s.file).length ≤
        (loadDataArray (Copy21.postData body s.file now).file).length := by
      rcases body with _ | r
      · exact Nat.le_refl _
      · by_cases hc : r.steps = .undef ∨ r.voltage = .undef ∨
            r.current = .undef ∨ r.power = .undef
        · simp [Copy21.postData, hc]
        · simp only [Copy21.postData, if_neg hc, loadDataArray_good,
            List.length_append, List.length_cons, List.length_nil]
          omega
    exact ⟨Nat.lt_of_lt_of_le hpos hlen, Nat.lt_of_lt_of_le hidx hlen⟩

theorem rawBody_valid (t : Nat) : Part001.bodyValid (rawBody t) :=
  ⟨by simp [rawBody], by simp [rawBody], by simp [rawBody], by simp [rawBody]⟩

theorem daily_eq (db : List MReading) :
    ServerJs.daily db =
      (((db.map (fun r => dateKey r.timestamp)).dedup).mergeSort
        DateKey.leB).map (ServerJs.mkBucket db) := rfl

theorem daily_keys (db : List MReading) :
    (ServerJs.daily db).map (·.key) =
      ((db.map (fun r => dateKey r.timestamp)).dedup).mergeSort DateKey.leB := by
  rw [daily_eq, List.map_map]
  have h : ((fun b : DailyBucket => b.key) ∘ ServerJs.mkBucket db) = id :=
    funext (fun k => rfl)
  rw [h, List.map_id]

/-! The claims, in order.  Each claim has exactly one theorem; failed claims
additionally have a counterexample theorem, and theorems with hypotheses have
a witness theorem evaluating them at concrete inputs. -/

/-- C1 counterexample: the file-backed `GET /api/data` of `part_001` returns
the stored sequence in insertion order without re-sorting — on a store whose
two readings were inserted with timestamps 2 then 1, the response is not
ascending by timestamp. -/
theorem c1_file_read_unsorted :
    ¬ List.Pairwise jsTsLe
      ((Part001.getData (.good [rawBody 2, rawBody 1]) 9).data) := by
  decide

/-- C1 (amended): the MongoDB-backed `listAll()` (`GET /api/data` and the
`initial-data` snapshot of `server.js`) returns the stored readings sorted
ascending by timestamp — a permutation of the store — whatever the insertion
order; the file-backed variant (`part_001`) instead serves the stored
sequence in insertion order (each record re-normalized), with no re-sort, so
its read order agrees with timestamp order only when insertion order does. -/
theorem c1_read_order (db : List MReading) (f : FileData) (now : Nat) :
    List.Pairwise (fun a b => tsLeB a b = true) (ServerJs.listAll db) ∧
    (ServerJs.listAll db).Perm db ∧
    ServerJs.connectSnapshot db = ServerJs.listAll db ∧
    (Part001.getData f now).data =
      (loadDataArray f).map (fun r => Part001.normalizeReading r now) := by
  refine ⟨?_, ?_, rfl, rfl⟩
  · exact List.sorted_mergeSort tsLeB_trans tsLeB_total db
  · exact List.mergeSort_perm db tsLeB

/-- C2 counterexample: 1001 successful appends, the first 1000 with
increasing timestamps 2..1001 and the last with the explicit past timestamp
1.  The bounded store retains exactly the last 1000 appended readings, but
`GET /api/data` returns them in insertion order, which here is not ascending
by timestamp — the retained window ends with timestamps 1001 then 1. -/
theorem c2_last_M_not_ts_sorted :
    ¬ List.Pairwise jsTsLe
      ((Part001.getData (Part001.postFold cexBodies (.good []) 77) 77).data) := by
  intro hsorted
  have hv : ∀ b ∈ cexBodies, Part001.bodyValid b := by
    intro b hb
    rcases List.mem_append.mp hb with h | h
    · obtain ⟨i, _, rfl⟩ := List.mem_map.mp h
      exact rawBody_valid (i + 2)
    · rw [List.mem_singleton.mp h]
      exact rawBody_valid 1
  have hfile : Part001.postFold cexBodies (.good []) 77 =
      .good (takeLast Part001.MAX_HISTORY
        (cexBodies.map (fun b => Part001.normalizeReading b 77))) := by
    rw [postFold_valid cexBodies [] 77 hv, store_eq_takeLast]
  have hsplit : cexBodies.map (fun b => Part001.normalizeReading b 77) =
      ((List.range 999).map
          (fun i => Part001.normalizeReading (rawBody (i + 2)) 77)) ++
        [Part001.normalizeReading (rawBody 1001) 77,
          Part001.normalizeReading (rawBody 1) 77] := by
    unfold cexBodies
    rw [show (1000 : Nat) = 999 + 1 from rfl, List.range_succ]
    simp [List.map_append, List.map_map, List.append_assoc, Function.comp]
  have hlenA : ((List.range 999).map
      (fun i => Part001.normalizeReading (rawBody (i + 2)) 77)).length = 999 := by
    rw [List.length_map, List.length_range]
  have hstore : takeLast Part001.MAX_HISTORY
      (cexBodies.map (fun b => Part001.normalizeReading b 77)) =
      (((List.range 999).map
          (fun i => Part001.normalizeReading (rawBody (i + 2)) 77)).drop 1) ++
        [Part001.normalizeReading (rawBody 1001) 77,
          Part001.normalizeReading (rawBody 1) 77] := by
    rw [hsplit]
    unfold takeLast
    rw [List.length_append, hlenA]
    rw [show (999 + ([Part001.normalizeReading (rawBody 1001) 77,
        Part001.normalizeReading (rawBody 1) 77].length) -
        Part001.MAX_HISTORY) = 1 from rfl]
    exact List.drop_append_of_le_length (by rw [hlenA]; omega)
  rw [hfile, hstore] at hsorted
  have hdata : (Part001.getData
      (.good ((((List.range 999).map
          (fun i => Part001.normalizeReading (rawBody (i + 2)) 77)).drop 1) ++
        [Part001.normalizeReading (rawBody 1001) 77,
          Part001.normalizeReading (rawBody 1) 77])) 77).data =
      ((((List.range 999).map
          (fun i => Part001.normalizeReading (rawBody (i + 2)) 77)).drop 1).map
        (fun r => Part001.normalizeReading r 77)) ++
        [Part001.normalizeReading (Part001.normalizeReading (rawBody 1001) 77) 77,
          Part001.normalizeReading (Part001.normalizeReading (rawBody 1) 77) 77] := by
    simp [Part001.getData, loadDataArray_good, List.map_append]
  rw [hdata] at hsorted
  have hpair : List.Pairwise jsTsLe
      [Part001.normalizeReading (Part001.normalizeReading (rawBody 1001) 77) 77,
        Part001.normalizeReading (Part001.normalizeReading (rawBody 1) 77) 77] :=
    hsorted.sublist (List.sublist_append_right _ _)
  have hrel : jsTsLe
      (Part001.normalizeReading (Part001.normalizeReading (rawBody 1001) 77) 77)
      (Part001.normalizeReading (Part001.normalizeReading (rawBody 1) 77) 77) :=
    (List.pairwise_cons.mp hpair).1 _ (List.mem_singleton.mpr rfl)
  exact absurd hrel (by decide)

/-- C2 (amended): after any sequence of successful appends on the bounded
file backend (`part_001`, `M = MAX_HISTORY = 1000`) the persisted store is
exactly the last `M` appended (normalized) readings — the oldest entries
having been evicted FIFO — and in particular holds at most `M` readings and
exactly `M` of them once more than `M` were appended; `GET /api/data` then
serves exactly this retained sequence in insertion order (re-normalized),
which coincides with timestamp order only when the appended timestamps were
themselves non-decreasing. -/
theorem c2_bounded_fifo (bodies : List JsObj) (now now2 : Nat)
    (hv : ∀ b ∈ bodies, Part001.bodyValid b) :
    Part001.postFold bodies (.good []) now =
      .good (takeLast Part001.MAX_HISTORY
        (bodies.map (fun b => Part001.normalizeReading b now))) ∧
    (takeLast Part001.MAX_HISTORY
        (bodies.map (fun b => Part001.normalizeReading b now))).length ≤
      Part001.MAX_HISTORY ∧
    (Part001.MAX_HISTORY < bodies.length →
      takeLast Part001.MAX_HISTORY
          (bodies.map (fun b => Part001.normalizeReading b now)) =
        (bodies.map (fun b => Part001.normalizeReading b now)).drop
          (bodies.length - Part001.MAX_HISTORY) ∧
      (takeLast Part001.MAX_HISTORY
          (bodies.map (fun b => Part001.normalizeReading b now))).length =
        Part001.MAX_HISTORY) ∧
    (Part001.getData
        (.good (takeLast Part001.MAX_HISTORY
          (bodies.map (fun b => Part001.normalizeReading b now)))) now2).data =
      (takeLast Part001.MAX_HISTORY
          (bodies.map (fun b => Part001.normalizeReading b now))).map
        (fun r => Part001.normalizeReading r now2) := by
  refine ⟨?_, ?_, ?_, by simp [Part001.getData, loadDataArray_good]⟩
  · rw [postFold_valid bodies [] now hv, store_eq_takeLast]
  · rw [takeLast_length]
    omega
  · intro h
    constructor
    · unfold takeLast
      rw [List.length_map]
    · rw [takeLast_length, List.length_map]
      omega

/-- C2 witness: a single append, retained whole and served back. -/
theorem c2_bounded_fifo_witness :
    Part001.postFold [rawBody 1] (.good []) 5 =
      .good (takeLast Part001.MAX_HISTORY
        ([rawBody 1].map (fun b => Part001.normalizeReading b 5))) ∧
    (takeLast Part001.MAX_HISTORY
        ([rawBody 1].map (fun b => Part001.normalizeReading b 5))).length ≤
      Part001.MAX_HISTORY :=
  ⟨(c2_bounded_fifo [rawBody 1] 5 7
      (fun b hb => by rw [List.mem_singleton.mp hb]; exact rawBody_valid 1)).1,
   (c2_bounded_fifo [rawBody 1] 5 7
      (fun b hb => by rw [List.mem_singleton.mp hb]; exact rawBody_valid 1)).2.1⟩

/-- C3 counterexample: on the file-backed variant, a request whose `steps`
field is present but not convertible to a finite number (`Number({})` is
`NaN`) is answered 200 and a record with `steps: null` is appended to the
store — it is not rejected with 400 and the stored sequence changes. -/
theorem c3_nonfinite_stored :
    (Part001.postData (some objStepsBody) (.good []) 9).status = 200 ∧
    (Part001.postData (some objStepsBody) (.good []) 9).file =
      .good [storedNullSteps] := by
  exact ⟨by decide, by decide⟩

/-- C3 (amended): the document-store variant (`part_000`) rejects with 400,
before anything reaches the store, exactly those requests in which one of
the four fields converts to `NaN` (an absent field converts to `NaN` and is
so rejected; infinite values pass and are stored); the file variant
(`part_001`) rejects with 400, before anything reaches the store, exactly
the requests with one of the four fields absent, and otherwise appends the
normalized record, in which a present but non-finite field has been coerced
to `null` rather than rejected. -/
theorem c3_validation (b : MBody) (db : List MReading) (now : Nat)
    (r : JsObj) (f : FileData) (now2 : Nat) :
    (((toNumber b.steps).isNaN || (toNumber b.power).isNaN ||
        (toNumber b.voltage).isNaN || (toNumber b.current).isNaN) = true →
      Part000.postData b db now = (⟨400, false, none⟩, db)) ∧
    (((toNumber b.steps).isNaN || (toNumber b.power).isNaN ||
        (toNumber b.voltage).isNaN || (toNumber b.current).isNaN) = false →
      Part000.postData b db now =
        (⟨200, true, some ⟨toNumber b.steps, toNumber b.power, toNumber b.voltage,
            toNumber b.current, tsOrNow b.timestamp now⟩⟩,
          db ++ [⟨toNumber b.steps, toNumber b.power, toNumber b.voltage,
            toNumber b.current, tsOrNow b.timestamp now⟩])) ∧
    ((r.steps = .undef ∨ r.voltage = .undef ∨ r.current = .undef ∨
        r.power = .undef) →
      Part001.postData (some r) f now2 = ⟨400, false, none, f⟩) ∧
    (Part001.bodyValid r →
      Part001.postData (some r) f now2 =
        ⟨200, true, some (Part001.normalizeReading r now2),
          .good (Part001.appendStep (loadDataArray f)
            (Part001.normalizeReading r now2))⟩) := by
  refine ⟨?_, ?_, ?_, ?_⟩
  · intro h
    simp [Part000.postData, h]
  · intro h
    simp [Part000.postData, h]
  · intro h
    simp [Part001.postData, h]
  · intro h
    obtain ⟨h1, h2, h3, h4⟩ := h
    simp [Part001.postData, h1, h2, h3, h4]

/-- C3 witness: a request with `steps` absent is rejected by `part_000` with
400 and an untouched store, and a well-formed request is appended by
`part_001`. -/
theorem c3_validation_witness :
    Part000.postData
        ⟨.undef, .num (.finite 1), .num (.finite 1), .num (.finite 1), none⟩
        [] 4 = (⟨400, false, none⟩, []) ∧
    Part001.postData (some (rawBody 1)) (.good []) 4 =
      ⟨200, true, some (Part001.normalizeReading (rawBody 1) 4),
        .good (Part001.appendStep []
          (Part001.normalizeReading (rawBody 1) 4))⟩ :=
  ⟨(c3_validation ⟨.undef, .num (.finite 1), .num (.finite 1), .num (.finite 1), none⟩
      [] 4 (rawBody 1) (.good []) 4).1 (by decide),
   (c3_validation ⟨.undef, .num (.finite 1), .num (.finite 1), .num (.finite 1), none⟩
      [] 4 (rawBody 1) (.good []) 4).2.2.2 (rawBody_valid 1)⟩

/-- C4: `DELETE /api/delete-all` with a key that does not match the
configured admin secret returns 403 and leaves the store unchanged; with
the matching key it deletes all readings, reports the deleted count, and
`listAll()` subsequently returns the empty sequence. -/
theorem c4_delete_all (db : List MReading) (key adminKey : Option String) :
    (key ≠ adminKey →
      Part000.deleteAll key adminKey db = (⟨403, false, "Unauthorized"⟩, db)) ∧
    (key = adminKey →
      Part000.deleteAll key adminKey db =
        (⟨200, true, "Deleted " ++ toString db.length ++ " readings"⟩, []) ∧
      Part000.listAll (Part000.deleteAll key adminKey db).2 = []) := by
  constructor
  · intro h
    simp [Part000.deleteAll, h]
  · intro h
    refine ⟨by simp [Part000.deleteAll, h], ?_⟩
    simp [Part000.deleteAll, h, Part000.listAll, sortByTs, List.mergeSort_nil]

/-- C4 witness: both branches at concrete keys over a one-reading store. -/
theorem c4_delete_all_witness :
    Part000.deleteAll (some "a") (some "k") [mRead 5] =
      (⟨403, false, "Unauthorized"⟩, [mRead 5]) ∧
    Part000.deleteAll (some "k") (some "k") [mRead 5] =
      (⟨200, true, "Deleted " ++ toString ([mRead 5].length) ++ " readings"⟩, []) ∧
    Part000.listAll (Part000.deleteAll (some "k") (some "k") [mRead 5]).2 = [] :=
  ⟨(c4_delete_all [mRead 5] (some "a") (some "k")).1 (by decide),
   ((c4_delete_all [mRead 5] (some "k") (some "k")).2 rfl).1,
   ((c4_delete_all [mRead 5] (some "k") (some "k")).2 rfl).2⟩

/-- C5: `totals()` over an empty store returns all-zero sums and all-zero
averages on both MongoDB variants — explicit zeros from the empty-pipeline
branch, never `NaN` and never a division by zero. -/
theorem c5_totals_empty :
    ServerJs.totals [] =
      ⟨.finite 0, .finite 0, .finite 0, .finite 0, .finite 0⟩ ∧
    Part000.totals [] =
      ⟨.finite 0, .finite 0, .finite 0, .finite 0, .finite 0, .finite 0,
        .finite 0⟩ ∧
    (∀ name, totalsField (ServerJs.totals []) name ≠ some JsNum.nan) := by
  refine ⟨rfl, rfl, ?_⟩
  intro name
  unfold totalsField
  split_ifs <;> simp [ServerJs.totals]

/-- C6 counterexample: on the one-reading store the daily endpoint produces
one bucket, and that bucket's JSON body carries no `avgPower` key, while the
aggregate totals snapshot does carry it — the daily buckets do not hold the
same shape as the aggregate snapshot. -/
theorem c6_daily_shape_differs :
    (ServerJs.daily [mRead 100]).length = 1 ∧
    (∀ b ∈ ServerJs.daily [mRead 100], dailyField b "avgPower" = none) ∧
    totalsField (ServerJs.totals [mRead 100]) "avgPower" =
      some (ServerJs.totals [mRead 100]).avgPower := by
  refine ⟨?_, ?_, rfl⟩
  · rw [daily_eq]
    rw [show ([mRead 100].map (fun r => dateKey r.timestamp)) = [dateKey 100]
      from rfl]
    rw [List.dedup_cons_of_not_mem (List.not_mem_nil _), List.dedup_nil,
      List.perm_singleton.mp (List.mergeSort_perm _ DateKey.leB)]
    rfl
  · intro b _
    rfl

/-- C6 (amended): `dailyBreakdown()` groups readings by the UTC calendar
date of their stored timestamp — two readings with the same UTC date fall
into one bucket, two readings on different UTC dates into two buckets — the
buckets are sorted ascending by date key, and every bucket holds the fields
`{totalSteps, totalPower, avgVoltage, avgCurrent}` of the aggregate
snapshot's shape, but no `avgPower` field. -/
theorem c6_daily_grouping (db : List MReading) (r1 r2 : MReading) :
    List.Pairwise (fun a b => DateKey.leB a b = true)
      ((ServerJs.daily db).map (·.key)) ∧
    (∀ b ∈ ServerJs.daily db,
      dailyField b "totalSteps" = some b.totalSteps ∧
      dailyField b "totalPower" = some b.totalPower ∧
      dailyField b "avgVoltage" = some b.avgVoltage ∧
      dailyField b "avgCurrent" = some b.avgCurrent ∧
      dailyField b "avgPower" = none) ∧
    (dateKey r1.timestamp = dateKey r2.timestamp →
      ServerJs.daily [r1, r2] =
        [ServerJs.mkBucket [r1, r2] (dateKey r2.timestamp)]) ∧
    (dateKey r1.timestamp ≠ dateKey r2.timestamp →
      (ServerJs.daily [r1, r2]).length = 2 ∧
      ((ServerJs.daily [r1, r2]).map (·.key)).Perm
        [dateKey r1.timestamp, dateKey r2.timestamp]) := by
  refine ⟨?_, ?_, ?_, ?_⟩
  · rw [daily_keys]
    exact List.sorted_mergeSort dateLeB_trans dateLeB_total _
  · intro b _
    exact ⟨rfl, rfl, rfl, rfl, rfl⟩
  · intro h
    rw [daily_eq]
    rw [show ([r1, r2].map (fun r => dateKey r.timestamp)) =
        [dateKey r2.timestamp, dateKey r2.timestamp] from by simp [h]]
    rw [List.dedup_cons_of_mem (List.mem_singleton.mpr rfl),
      List.dedup_cons_of_not_mem (List.not_mem_nil _), List.dedup_nil,
      List.perm_singleton.mp (List.mergeSort_perm _ DateKey.leB)]
    rfl
  · intro h
    have hd : ([r1, r2].map (fun r => dateKey r.timestamp)).dedup =
        [dateKey r1.timestamp, dateKey r2.timestamp] := by
      simp only [List.map_cons, List.map_nil]
      rw [List.dedup_cons_of_not_mem (by simpa using h),
        List.dedup_cons_of_not_mem (List.not_mem_nil _), List.dedup_nil]
    have hkeys : (ServerJs.daily [r1, r2]).map (·.key) =
        ([dateKey r1.timestamp, dateKey r2.timestamp]).mergeSort DateKey.leB := by
      rw [daily_keys, hd]
    have hperm := List.mergeSort_perm
      [dateKey r1.timestamp, dateKey r2.timestamp] DateKey.leB
    constructor
    · have hlen := congrArg List.length hkeys
      rw [List.length_map, hperm.length_eq] at hlen
      simpa using hlen
    · rw [hkeys]
      exact hperm

/-- C6 witness: two same-day readings land in one bucket; two readings on
different UTC dates land in two buckets. -/
theorem c6_daily_grouping_witness :
    ServerJs.daily [mRead 100, mRead 5000000] =
      [ServerJs.mkBucket [mRead 100, mRead 5000000] (dateKey 5000000)] ∧
    (ServerJs.daily [mRead 100, mRead 100000000]).length = 2 :=
  ⟨(c6_daily_grouping [] (mRead 100) (mRead 5000000)).2.2.1 (by decide),
   ((c6_daily_grouping [] (mRead 100) (mRead 100000000)).2.2.2 (by decide)).1⟩

/-- C7: when the persisted data is unreadable or unparseable on load, every
subsequent read of the store (API read and new-observer snapshot, in both
file-backed variants) degrades to the empty history within a successful
response rather than failing. -/
theorem c7_corrupt_reads (now : Nat) :
    loadDataArray .malformed = [] ∧ loadDataArray .missing = [] ∧
    Part001.getData .malformed now = ⟨200, true, []⟩ ∧
    Part001.getData .missing now = ⟨200, true, []⟩ ∧
    Part001.connectSnapshot .malformed now = [] ∧
    Copy21.getData .malformed = ⟨200, true, []⟩ ∧
    Copy21.connectSnapshot .malformed = [] :=
  ⟨rfl, rfl, rfl, rfl, rfl, rfl, rfl⟩

/-- C8: the schedule in which observer 0 connects after `mRead 100`'s append
completed but before its broadcast ran, and the observer's awaited snapshot
query resolves after the broadcast, delivers the reading to the observer
twice — once via `new-reading` (the socket was registered when `io.emit`
ran) and once inside `initial-data` (the `find()` read the collection after
the append) — not exactly once as required. -/
theorem c8_double_delivery :
    deliveredCount
      (hubRun hubInit
        [.append (mRead 100), .connect 0, .broadcast (mRead 100),
          .resolveSnapshot 0]) 0 (mRead 100) = 2 := by
  decide

/-- C9: at every reachable replay-simulator state, a tick leaves the
persisted file unchanged, emits exactly one `new-reading` event carrying a
stored reading (the one selected by the wrapping index) re-stamped with the
current instant, and advances the index cyclically. -/
theorem c9_sim_tick (s : Copy21.SimState) (now : Nat)
    (h : Copy21.SimReach s) :
    (Copy21.simTick s now).1.file = s.file ∧
    s.idx < (loadDataArray s.file).length ∧
    (Copy21.simTick s now).2 =
      some ("new-reading",
        Copy21.stampTs ((loadDataArray s.file).getD s.idx {}) now) ∧
    (Copy21.simTick s now).1.idx =
      (s.idx + 1) % (loadDataArray s.file).length := by
  obtain ⟨hpos, hidx⟩ := simReach_inv h
  rw [simTick_pos s now (Nat.pos_iff_ne_zero.mp hpos)]
  exact ⟨rfl, hidx, rfl, rfl⟩

/-- C9 witness: one tick from the started state over a one-reading store. -/
theorem c9_sim_tick_witness :
    (Copy21.simTick ⟨.good [rawBody 3], 0⟩ 8).1.file = .good [rawBody 3] ∧
    (0 : Nat) < 1 ∧
    (Copy21.simTick ⟨.good [rawBody 3], 0⟩ 8).2 =
      some ("new-reading", Copy21.stampTs (rawBody 3) 8) ∧
    (Copy21.simTick ⟨.good [rawBody 3], 0⟩ 8).1.idx = 0 :=
  c9_sim_tick ⟨.good [rawBody 3], 0⟩ 8
    (Copy21.SimReach.start (.good [rawBody 3]) (by decide))

/-- C10: with `ADMIN_KEY` unset and no `key` query parameter the strict
comparison succeeds (both sides `undefined`) and all readings are deleted
with a success response; the 403 branch is taken exactly when the supplied
key and the configured value differ. -/
theorem c10_admin_unset (db : List MReading) (key adminKey : Option String) :
    Part000.deleteAll none none db =
      (⟨200, true, "Deleted " ++ toString db.length ++ " readings"⟩, []) ∧
    ((Part000.deleteAll key adminKey db).1.status = 403 ↔ key ≠ adminKey) := by
  constructor
  · simp [Part000.deleteAll]
  · by_cases h : key = adminKey
    · simp [Part000.deleteAll, h]
    · simp [Part000.deleteAll, h]

/-- C10 witness: concrete instances of both parts. -/
theorem c10_admin_unset_witness :
    Part000.deleteAll none none [mRead 5] =
      (⟨200, true, "Deleted " ++ toString ([mRead 5].length) ++ " readings"⟩, []) ∧
    ((Part000.deleteAll (some "x") none [mRead 5]).1.status = 403 ↔
      (some "x" : Option String) ≠ none) :=
  ⟨(c10_admin_unset [mRead 5] none none).1,
   (c10_admin_unset [mRead 5] (some "x") none).2⟩
